import Mathlib

/-!
Shallow embedding of the two execution engines of this repository:
the ordered, parameterized SQL deployment executor
(scripts/utils/deploy.py) and the declarative data-quality validator
(scripts/utils/data_quality_validator.py).

SQL text is modelled as `List Char`; the Python string operations the
code uses (`str.split(';')`, `str.strip()`, `str.replace`) are embedded
as executable functions below.  The warehouse connector is an opaque
capability: for deployment a function from a statement to success or a
raised error, for validation a function from a query string to the
optional single fetched row.
-/

/-- Whitespace recognised by Python `str.strip()` (ASCII subset; the SQL
sources are ASCII). -/
def isPySpace (c : Char) : Bool :=
  c = ' ' || c = '\t' || c = '\n' || c = '\x0d' || c = '\x0b' || c = '\x0c'

/-- Python `s.strip()`: remove leading and trailing whitespace. -/
def pyStrip (s : List Char) : List Char :=
  (s.dropWhile isPySpace).rdropWhile isPySpace

/-- Python `s.split(sep)` for a single-character separator: split at every
occurrence of `sep`, keeping empty pieces. -/
def pySplit (sep : Char) : List Char → List (List Char)
  | [] => [[]]
  | c :: cs =>
    if c = sep then [] :: pySplit sep cs
    else
      match pySplit sep cs with
      | [] => [[c]]
      | p :: ps => (c :: p) :: ps

/-- Python `s.replace(old, new)`: replace every non-overlapping occurrence
of `old` by `new`, scanning left to right.  The deployment code only calls
this with a non-empty `old` (a brace-delimited placeholder token), so the
`old = []` case is modelled as the identity. -/
def pyReplace (old new : List Char) : List Char → List Char
  | [] => []
  | c :: cs =>
    if h : old ≠ [] ∧ old.isPrefixOf (c :: cs) then
      new ++ pyReplace old new (List.drop old.length (c :: cs))
    else
      c :: pyReplace old new cs
termination_by s => s.length
decreasing_by
  · simp only [List.length_drop, List.length_cons]
    have hold : 1 ≤ old.length := by
      cases old with
      | nil => exact absurd rfl h.1
      | cons a as => simp
    omega
  · simp

/-- The placeholder token for a key: the key name wrapped in single
braces, as built by the Python f-string in `execute_sql_file`. -/
def placeholderToken (key : List Char) : List Char :=
  '\x7b' :: key ++ ['\x7d']

/-- The replacement loop of `execute_sql_file`: for each (key, value) pair
in insertion order, replace the brace-delimited token of the key by the
value, each pass running over the already-substituted text. -/
def applyReplacements (repl : List (List Char × List Char)) (s : List Char) : List Char :=
  repl.foldl (fun acc kv => pyReplace (placeholderToken kv.1) kv.2 acc) s

/-- Statement splitting of `execute_sql_file`:
`[stmt.strip() for stmt in sql_content.split(';') if stmt.strip()]`. -/
def splitStatements (s : List Char) : List (List Char) :=
  ((pySplit ';' s).map pyStrip).filter (fun t => !t.isEmpty)

/-- Environment configuration record, the fields `deploy_environment`
reads from the loaded configuration: database, warehouse and role. -/
structure EnvConfig where
  database : List Char
  warehouse : List Char
  role : List Char

/-- The filesystem as the deployment executor sees it: folder existence,
raw enumeration of `.sql` files in a folder (order unspecified, as
returned by `glob.glob`), and file contents. -/
structure DeployFS where
  dirExists : String → Bool
  globSql : String → List String
  fileContent : String → List Char

/-- The connector capability used by deployment: executing a statement
either succeeds or raises an error. -/
def Cursor : Type := List Char → Except String Unit

/-- Result of running part of a deployment: the statements passed to
`cursor.execute` (in order), the console lines printed, and whether a
raised error aborted the run. -/
structure ExecResult where
  attempted : List (List Char)
  log : List (List Char)
  result : Except String Unit

/-- Console line printed before executing a statement:
`print(f"Executing: ...")` with the statement truncated to 100
characters. -/
def execLine (s : List Char) : List Char :=
  "Executing: ".toList ++ s.take 100 ++ "...".toList

/-- The statement loop of `execute_sql_file`: execute each statement in
order; on success print a success mark and continue, on error print the
error and re-raise, aborting the loop. -/
def runStatements (cursor : Cursor) : List (List Char) → ExecResult
  | [] => ⟨[], [], Except.ok ()⟩
  | s :: rest =>
    match cursor s with
    | Except.ok _ =>
      let r := runStatements cursor rest
      ⟨s :: r.attempted, execLine s :: "✓ Success".toList :: r.log, r.result⟩
    | Except.error e =>
      ⟨[s], [execLine s, ("✗ Error: " ++ e).toList], Except.error e⟩

/-- `execute_sql_file`: read the file, apply the parameter replacements
to the full text, split into statements, and execute them in order. -/
def execute_sql_file (cursor : Cursor) (fs : DeployFS) (file_path : String)
    (replacements : List (List Char × List Char)) : ExecResult :=
  runStatements cursor (splitStatements (applyReplacements replacements (fs.fileContent file_path)))

/-- The fixed folder order of `deploy_environment`. -/
def deployment_order : List String := ["ddl", "stored_procedures", "tasks", "rbac"]

/-- Folder path built by `deploy_environment`. -/
def folder_path (environment folder : String) : String :=
  "scripts/" ++ environment ++ "/" ++ folder

/-- The `.sql` files of a folder after `sql_files.sort()`: the glob
result sorted lexically. -/
def sortedSqlFiles (fs : DeployFS) (p : String) : List String :=
  (fs.globSql p).mergeSort (fun a b => a ≤ b)

/-- The file loop inside one folder of `deploy_environment`. -/
def runFiles (cursor : Cursor) (fs : DeployFS) (replacements : List (List Char × List Char)) :
    List String → ExecResult
  | [] => ⟨[], [], Except.ok ()⟩
  | f :: rest =>
    let header := ("Executing " ++ f ++ "...").toList
    let r1 := execute_sql_file cursor fs f replacements
    match r1.result with
    | Except.ok _ =>
      let r2 := runFiles cursor fs replacements rest
      ⟨r1.attempted ++ r2.attempted, header :: r1.log ++ r2.log, r2.result⟩
    | Except.error e => ⟨r1.attempted, header :: r1.log, Except.error e⟩

/-- The folder loop of `deploy_environment`: folders are visited in the
given order; a folder absent on disk is skipped. -/
def runFolders (cursor : Cursor) (fs : DeployFS) (environment : String)
    (replacements : List (List Char × List Char)) : List String → ExecResult
  | [] => ⟨[], [], Except.ok ()⟩
  | folder :: rest =>
    if fs.dirExists (folder_path environment folder) then
      let header := ("\n📂 Deploying " ++ folder ++ "...").toList
      let r1 := runFiles cursor fs replacements (sortedSqlFiles fs (folder_path environment folder))
      match r1.result with
      | Except.ok _ =>
        let r2 := runFolders cursor fs environment replacements rest
        ⟨r1.attempted ++ r2.attempted, header :: r1.log ++ r2.log, r2.result⟩
      | Except.error e => ⟨r1.attempted, header :: r1.log, Except.error e⟩
    else runFolders cursor fs environment replacements rest

/-- The parameter replacements `deploy_environment` builds from the
environment configuration, in dictionary insertion order. -/
def replacements_of (config : EnvConfig) : List (List Char × List Char) :=
  [("DATABASE_NAME".toList, config.database),
   ("WAREHOUSE_NAME".toList, config.warehouse),
   ("ROLE_NAME".toList, config.role)]

/-- Final console line printed when every folder deployed without a
raised error. -/
def successLine (environment : String) : List Char :=
  ("\n🎉 " ++ environment.map Char.toUpper ++ " deployment completed successfully!").toList

/-- Outcome of a whole `deploy_environment` run: what was attempted and
logged, the result (success, or the re-raised statement error), and
whether the `finally` block closed the cursor and the connection. -/
structure DeployRun where
  attempted : List (List Char)
  log : List (List Char)
  result : Except String Unit
  cursorClosed : Bool
  connClosed : Bool

/-- `deploy_environment`: build the replacements, walk the folders in
the fixed order, print the success line only if nothing raised, and
close cursor and connection in the `finally` block on every path. -/
def deploy_environment (cursor : Cursor) (fs : DeployFS) (environment : String)
    (config : EnvConfig) : DeployRun :=
  let body := runFolders cursor fs environment (replacements_of config) deployment_order
  let fullLog := body.log ++ (match body.result with
    | Except.ok _ => [successLine environment]
    | Except.error _ => [])
  ⟨body.attempted, fullLog, body.result, true, true⟩

/-- Statements one file contributes: its content after substitution,
split into trimmed non-empty statements. -/
def fileStatements (fs : DeployFS) (replacements : List (List Char × List Char))
    (f : String) : List (List Char) :=
  splitStatements (applyReplacements replacements (fs.fileContent f))

/-- Statements one folder contributes: nothing when the folder is absent,
otherwise the statements of its `.sql` files in lexical order. -/
def folderStatements (fs : DeployFS) (environment : String)
    (replacements : List (List Char × List Char)) (folder : String) : List (List Char) :=
  if fs.dirExists (folder_path environment folder) then
    (sortedSqlFiles fs (folder_path environment folder)).flatMap (fileStatements fs replacements)
  else []

/-- The full planned statement sequence of a deployment: folder by folder
in the fixed order, file by file in lexical order, statement by statement
in source order. -/
def plannedStatements (fs : DeployFS) (environment : String)
    (replacements : List (List Char × List Char)) : List (List Char) :=
  (deployment_order.map (folderStatements fs environment replacements)).flatten

/-- The connector capability used by validation: `cursor.execute(query)`
followed by `cursor.fetchone()`, returning the optional single row. -/
def Fetch : Type := String → Option (List Int)

/-- A null or uniqueness check rule: a table and an ordered list of
column names. -/
structure ColumnsCheck where
  table : String
  columns : List String

/-- A row-count check rule: a table and the required minimum row count. -/
structure CountCheck where
  table : String
  min_count : Int

/-- The rule set `validate_data_quality` reads from
the data_quality_checks entry of the rule file, one ordered list per
check kind. -/
structure RuleSet where
  null_checks : List ColumnsCheck
  unique_checks : List ColumnsCheck
  count_checks : List CountCheck

/-- Python `result[0] if result else 0`: the first value of the fetched
row, or 0 when no row came back.  (The aggregate queries always return a
row with the needed columns; a missing column defaults to 0 here.) -/
def fetchedFirst (r : Option (List Int)) : Int :=
  match r with
  | some row => row.getD 0 0
  | none => 0

/-- Python `result[1] if result else 0`: the second value of the fetched
row, or 0 when no row came back. -/
def fetchedSecond (r : Option (List Int)) : Int :=
  match r with
  | some row => row.getD 1 0
  | none => 0

/-- The NULL-count query text of `run_null_checks` (the source file is
double-spaced, so the triple-quoted query carries doubled newlines). -/
def null_query (database table column : String) : String :=
  " \n\n            SELECT COUNT(*) as null_count  \n\n            FROM "
    ++ database ++ "." ++ table
    ++ "  \n\n            WHERE " ++ column ++ " IS NULL \n\n            "

/-- The total/distinct query text of `run_unique_checks`. -/
def unique_query (database table column : String) : String :=
  " \n\n            SELECT COUNT(*) as total_count,  \n\n                   COUNT(DISTINCT "
    ++ column ++ ") as unique_count \n\n            FROM "
    ++ database ++ "." ++ table ++ " \n\n            "

/-- The row-count query text of `run_count_checks`. -/
def count_query (database table : String) : String :=
  "SELECT COUNT(*) FROM " ++ database ++ "." ++ table

/-- The NULL count `run_null_checks` computes for one table/column. -/
def null_count_of (fetch : Fetch) (database table column : String) : Int :=
  fetchedFirst (fetch (null_query database table column))

/-- Failure description of a failing null check. -/
def null_desc (table column : String) (null_count : Int) : String :=
  "❌ " ++ table ++ "." ++ column ++ ": " ++ toString null_count ++ " NULL values found"

/-- The inner column loop of `run_null_checks`: append a failure
description whenever the NULL count is positive. -/
def null_check_columns (fetch : Fetch) (database table : String) : List String → List String
  | [] => []
  | column :: cols =>
    let null_count := null_count_of fetch database table column
    (if null_count > 0 then [null_desc table column null_count] else [])
      ++ null_check_columns fetch database table cols

/-- `run_null_checks`: the accumulated failure descriptions, rule by rule
and column by column, in order. -/
def run_null_checks (fetch : Fetch) (database : String) : List ColumnsCheck → List String
  | [] => []
  | check :: rest =>
    null_check_columns fetch database check.table check.columns
      ++ run_null_checks fetch database rest

/-- The total row count `run_unique_checks` computes for one
table/column. -/
def total_count_of (fetch : Fetch) (database table column : String) : Int :=
  fetchedFirst (fetch (unique_query database table column))

/-- The distinct-value count `run_unique_checks` computes for one
table/column. -/
def unique_count_of (fetch : Fetch) (database table column : String) : Int :=
  fetchedSecond (fetch (unique_query database table column))

/-- Failure description of a failing uniqueness check, reporting the
duplicate count. -/
def unique_desc (table column : String) (duplicates : Int) : String :=
  "❌ " ++ table ++ "." ++ column ++ ": " ++ toString duplicates ++ " duplicate values found"

/-- The inner column loop of `run_unique_checks`: append a failure
description, reporting `total_count - unique_count` duplicates, whenever
the two counts differ. -/
def unique_check_columns (fetch : Fetch) (database table : String) : List String → List String
  | [] => []
  | column :: cols =>
    let total_count := total_count_of fetch database table column
    let unique_count := unique_count_of fetch database table column
    (if total_count ≠ unique_count
     then [unique_desc table column (total_count - unique_count)] else [])
      ++ unique_check_columns fetch database table cols

/-- `run_unique_checks`: the accumulated failure descriptions, rule by
rule and column by column, in order. -/
def run_unique_checks (fetch : Fetch) (database : String) : List ColumnsCheck → List String
  | [] => []
  | check :: rest =>
    unique_check_columns fetch database check.table check.columns
      ++ run_unique_checks fetch database rest

/-- The actual row count `run_count_checks` computes for one table. -/
def actual_count_of (fetch : Fetch) (database table : String) : Int :=
  fetchedFirst (fetch (count_query database table))

/-- Failure description of a failing count check, reporting the actual
count and the required minimum. -/
def count_desc (table : String) (actual_count min_count : Int) : String :=
  "❌ " ++ table ++ ": " ++ toString actual_count
    ++ " rows (minimum " ++ toString min_count ++ " required)"

/-- `run_count_checks`: the accumulated failure descriptions, rule by
rule, in order; a rule fails exactly when the actual count is strictly
below its minimum. -/
def run_count_checks (fetch : Fetch) (database : String) : List CountCheck → List String
  | [] => []
  | check :: rest =>
    let actual_count := actual_count_of fetch database check.table
    (if actual_count < check.min_count
     then [count_desc check.table actual_count check.min_count] else [])
      ++ run_count_checks fetch database rest

/-- Outcome of a whole `validate_data_quality` run: the accumulated
failure list, the failure descriptions printed in the report, the process
exit code, and whether the `finally` block closed the cursor and the
connection. -/
structure ValidateRun where
  all_failed_checks : List String
  reported : List String
  exitCode : Nat
  cursorClosed : Bool
  connClosed : Bool

/-- `validate_data_quality`: run the three check families to completion
in null, unique, count order, accumulate every failure, print every
failure and exit 1 when any exists, exit 0 otherwise; the `finally`
block closes cursor and connection on every path (Python `exit(1)`
raises SystemExit, so the `finally` block still runs). -/
def validate_data_quality (fetch : Fetch) (database : String) (rules : RuleSet) : ValidateRun :=
  let all_failed_checks :=
    run_null_checks fetch database rules.null_checks
      ++ run_unique_checks fetch database rules.unique_checks
      ++ run_count_checks fetch database rules.count_checks
  if all_failed_checks.isEmpty then
    ⟨all_failed_checks, [], 0, true, true⟩
  else
    ⟨all_failed_checks, all_failed_checks, 1, true, true⟩

/-- Modelled from the spec: simultaneous placeholder replacement of the
original tokens, scanning the text once and never rescanning inserted
values.  Used only to compare against the sequential substitution the
code performs. -/
def simultaneousSubst (repl : List (List Char × List Char)) : List Char → List Char
  | [] => []
  | c :: cs =>
    match repl.find? (fun kv => (placeholderToken kv.1).isPrefixOf (c :: cs)) with
    | some kv => kv.2 ++ simultaneousSubst repl (List.drop (placeholderToken kv.1).length (c :: cs))
    | none => c :: simultaneousSubst repl cs
termination_by s => s.length
decreasing_by
  · simp only [List.length_drop, List.length_cons, placeholderToken, List.length_cons,
      List.length_append]
    omega
  · simp

lemma pySplit_ne_nil (sep : Char) (s : List Char) : pySplit sep s ≠ [] := by
  induction s with
  | nil => simp [pySplit]
  | cons c cs ih =>
    simp only [pySplit]
    split
    · simp
    · cases h : pySplit sep cs with
      | nil => simp
      | cons p ps => simp

lemma length_pySplit (sep : Char) (s : List Char) :
    (pySplit sep s).length = s.count sep + 1 := by
  induction s with
  | nil => simp [pySplit]
  | cons c cs ih =>
    simp only [pySplit]
    by_cases hc : c = sep
    · simp [hc, List.count_cons, ih]
    · simp only [if_neg hc]
      cases h : pySplit sep cs with
      | nil => exact absurd h (pySplit_ne_nil sep cs)
      | cons p ps =>
        rw [h] at ih
        simp only [List.length_cons] at ih ⊢
        have : (c == sep) = false := by simp [hc]
        simp [List.count_cons, this, ih]

lemma pyStrip_idem (s : List Char) : pyStrip (pyStrip s) = pyStrip s := by
  unfold pyStrip
  have h1 : ((s.dropWhile isPySpace).rdropWhile isPySpace).dropWhile isPySpace
      = (s.dropWhile isPySpace).rdropWhile isPySpace := by
    rw [List.dropWhile_eq_self_iff]
    intro hl
    have hpre := List.rdropWhile_prefix isPySpace (s.dropWhile isPySpace)
    have hl2 : 0 < (s.dropWhile isPySpace).length := by
      have := hpre.length_le
      omega
    have hnot := List.dropWhile_get_zero_not (p := isPySpace) s hl2
    have hget : ((s.dropWhile isPySpace).rdropWhile isPySpace).get ⟨0, hl⟩
        = (s.dropWhile isPySpace).get ⟨0, hl2⟩ := by
      simp only [List.get_eq_getElem]
      exact hpre.getElem hl
    rw [hget]
    exact hnot
  rw [h1, List.rdropWhile_idempotent]

lemma mem_splitStatements {s t : List Char} (h : t ∈ splitStatements s) :
    t ≠ [] ∧ pyStrip t = t := by
  unfold splitStatements at h
  obtain ⟨hmem, hpred⟩ := List.mem_filter.mp h
  obtain ⟨p, _, hp⟩ := List.mem_map.mp hmem
  constructor
  · intro hnil
    rw [hnil] at hpred
    simp at hpred
  · rw [← hp]
    exact pyStrip_idem p

lemma splitStatements_sublist (s : List Char) :
    List.Sublist (splitStatements s) ((pySplit ';' s).map pyStrip) :=
  List.filter_sublist _

lemma runStatements_append (cursor : Cursor) (xs ys : List (List Char)) :
    (runStatements cursor (xs ++ ys)).attempted
      = (runStatements cursor xs).attempted
        ++ (match (runStatements cursor xs).result with
            | Except.ok _ => (runStatements cursor ys).attempted
            | Except.error _ => [])
  ∧ (runStatements cursor (xs ++ ys)).result
      = (match (runStatements cursor xs).result with
         | Except.ok _ => (runStatements cursor ys).result
         | Except.error e => Except.error e) := by
  induction xs with
  | nil => simp [runStatements]
  | cons x xs ih =>
    obtain ⟨ih1, ih2⟩ := ih
    cases hx : cursor x with
    | ok u =>
      refine ⟨?_, ?_⟩
      · simp only [List.cons_append, runStatements, hx]
        simpa using ih1
      · simp only [List.cons_append, runStatements, hx]
        exact ih2
    | error e =>
      refine ⟨?_, ?_⟩
      · simp only [List.cons_append, runStatements, hx]
        simp
      · simp only [List.cons_append, runStatements, hx]

lemma runStatements_ok_all (cursor : Cursor) (xs : List (List Char))
    (h : ∀ s ∈ xs, cursor s = Except.ok ()) :
    (runStatements cursor xs).attempted = xs
  ∧ (runStatements cursor xs).result = Except.ok () := by
  induction xs with
  | nil => simp [runStatements]
  | cons x xs ih =>
    have hx : cursor x = Except.ok () := h x (by simp)
    have ih2 := ih (fun s hs => h s (by simp [hs]))
    simp only [runStatements, hx]
    exact ⟨by simp [ih2.1], ih2.2⟩

lemma runStatements_error_at (cursor : Cursor) (pre post : List (List Char))
    (bad : List Char) (e : String)
    (hpre : ∀ s ∈ pre, cursor s = Except.ok ()) (hbad : cursor bad = Except.error e) :
    (runStatements cursor (pre ++ bad :: post)).attempted = pre ++ [bad]
  ∧ (runStatements cursor (pre ++ bad :: post)).result = Except.error e := by
  induction pre with
  | nil => simp [runStatements, hbad]
  | cons x xs ih =>
    have hx : cursor x = Except.ok () := hpre x (by simp)
    have ih2 := ih (fun s hs => hpre s (by simp [hs]))
    simp only [List.cons_append, runStatements, hx]
    exact ⟨by simp [ih2.1], ih2.2⟩

lemma runStatements_log_mem (cursor : Cursor) (l : List (List Char)) (s : List Char)
    (h : s ∈ (runStatements cursor l).attempted) :
    execLine s ∈ (runStatements cursor l).log := by
  induction l with
  | nil => simp [runStatements] at h
  | cons x xs ih =>
    cases hx : cursor x with
    | ok u =>
      simp only [runStatements, hx, List.mem_cons] at h ⊢
      rcases h with h | h
      · exact Or.inl (by rw [h])
      · exact Or.inr (Or.inr (ih h))
    | error e =>
      simp only [runStatements, hx, List.mem_cons] at h ⊢
      rcases h with h | h
      · exact Or.inl (by rw [h])
      · simp at h

lemma runFiles_spec (cursor : Cursor) (fs : DeployFS)
    (repl : List (List Char × List Char)) (files : List String) :
    (runFiles cursor fs repl files).attempted
      = (runStatements cursor (files.flatMap (fileStatements fs repl))).attempted
  ∧ (runFiles cursor fs repl files).result
      = (runStatements cursor (files.flatMap (fileStatements fs repl))).result := by
  induction files with
  | nil => simp [runFiles, runStatements]
  | cons f rest ih =>
    simp only [runFiles, List.flatMap_cons]
    have happ := runStatements_append cursor (fileStatements fs repl f)
      (rest.flatMap (fileStatements fs repl))
    have hexec : execute_sql_file cursor fs f repl
        = runStatements cursor (fileStatements fs repl f) := rfl
    rw [hexec]
    cases hr : (runStatements cursor (fileStatements fs repl f)).result with
    | ok u =>
      rw [hr] at happ
      simp only at happ
      exact ⟨by rw [happ.1, ih.1], by rw [happ.2, ih.2]⟩
    | error e =>
      rw [hr] at happ
      simp only at happ
      exact ⟨by rw [happ.1]; simp, by rw [happ.2]⟩

lemma runFolders_spec (cursor : Cursor) (fs : DeployFS) (environment : String)
    (repl : List (List Char × List Char)) (folders : List String) :
    (runFolders cursor fs environment repl folders).attempted
      = (runStatements cursor ((folders.map (folderStatements fs environment repl)).flatten)).attempted
  ∧ (runFolders cursor fs environment repl folders).result
      = (runStatements cursor ((folders.map (folderStatements fs environment repl)).flatten)).result := by
  induction folders with
  | nil => simp [runFolders, runStatements]
  | cons folder rest ih =>
    by_cases hd : fs.dirExists (folder_path environment folder)
    · have happ := runStatements_append cursor (folderStatements fs environment repl folder)
        ((rest.map (folderStatements fs environment repl)).flatten)
      have hfolder : folderStatements fs environment repl folder
          = (sortedSqlFiles fs (folder_path environment folder)).flatMap (fileStatements fs repl) := by
        simp [folderStatements, hd]
      have hfiles := runFiles_spec cursor fs repl
        (sortedSqlFiles fs (folder_path environment folder))
      simp only [runFolders, hd, if_true, List.map_cons, List.flatten_cons]
      rw [← hfolder] at hfiles
      cases hr : (runFiles cursor fs repl
          (sortedSqlFiles fs (folder_path environment folder))).result with
      | ok u =>
        rw [hr] at hfiles
        rw [← hfiles.2] at happ
        dsimp only at happ ⊢
        exact ⟨by rw [happ.1, ← hfiles.1, ih.1], by rw [happ.2, ih.2]⟩
      | error e =>
        rw [hr] at hfiles
        rw [← hfiles.2] at happ
        dsimp only at happ ⊢
        exact ⟨by rw [happ.1, ← hfiles.1]; simp, by rw [happ.2]⟩
    · have hfolder : folderStatements fs environment repl folder = [] := by
        simp [folderStatements, hd]
      simp only [runFolders, hd, if_false, List.map_cons, List.flatten_cons, hfolder,
        List.nil_append]
      exact ih

/-- Characterization of a whole deployment run: what it attempts and how
it ends is exactly the fail-fast execution of the planned statement
sequence. -/
lemma deploy_spec (cursor : Cursor) (fs : DeployFS) (environment : String)
    (config : EnvConfig) :
    (deploy_environment cursor fs environment config).attempted
      = (runStatements cursor (plannedStatements fs environment (replacements_of config))).attempted
  ∧ (deploy_environment cursor fs environment config).result
      = (runStatements cursor (plannedStatements fs environment (replacements_of config))).result := by
  have h := runFolders_spec cursor fs environment (replacements_of config) deployment_order
  exact ⟨h.1, h.2⟩

lemma runFiles_log_mem (cursor : Cursor) (fs : DeployFS)
    (repl : List (List Char × List Char)) (files : List String) (s : List Char)
    (h : s ∈ (runFiles cursor fs repl files).attempted) :
    execLine s ∈ (runFiles cursor fs repl files).log := by
  induction files with
  | nil => simp [runFiles] at h
  | cons f rest ih =>
    simp only [runFiles] at h ⊢
    cases hr : (execute_sql_file cursor fs f repl).result with
    | ok u =>
      rw [hr] at h
      dsimp only at h ⊢
      simp only [List.mem_append] at h
      rcases h with h | h
      · have := runStatements_log_mem cursor _ s h
        simp only [List.mem_cons, List.mem_append]
        exact Or.inl (Or.inr this)
      · simp only [List.mem_cons, List.mem_append]
        exact Or.inr (ih h)
    | error e =>
      rw [hr] at h
      dsimp only at h ⊢
      have := runStatements_log_mem cursor _ s h
      simp only [List.mem_cons]
      exact Or.inr this

lemma runFolders_log_mem (cursor : Cursor) (fs : DeployFS) (environment : String)
    (repl : List (List Char × List Char)) (folders : List String) (s : List Char)
    (h : s ∈ (runFolders cursor fs environment repl folders).attempted) :
    execLine s ∈ (runFolders cursor fs environment repl folders).log := by
  induction folders with
  | nil => simp [runFolders] at h
  | cons folder rest ih =>
    by_cases hd : fs.dirExists (folder_path environment folder)
    · simp only [runFolders, hd, if_true] at h ⊢
      cases hr : (runFiles cursor fs repl
          (sortedSqlFiles fs (folder_path environment folder))).result with
      | ok u =>
        rw [hr] at h
        dsimp only at h ⊢
        simp only [List.mem_append] at h
        rcases h with h | h
        · have := runFiles_log_mem cursor fs repl _ s h
          simp only [List.mem_cons, List.mem_append]
          exact Or.inl (Or.inr this)
        · simp only [List.mem_cons, List.mem_append]
          exact Or.inr (ih h)
      | error e =>
        rw [hr] at h
        dsimp only at h ⊢
        have := runFiles_log_mem cursor fs repl _ s h
        simp only [List.mem_cons]
        exact Or.inr this
    · simp only [runFolders, hd, if_false] at h ⊢
      exact ih h

lemma deploy_log_mem (cursor : Cursor) (fs : DeployFS) (environment : String)
    (config : EnvConfig) (s : List Char)
    (h : s ∈ (deploy_environment cursor fs environment config).attempted) :
    execLine s ∈ (deploy_environment cursor fs environment config).log := by
  have := runFolders_log_mem cursor fs environment (replacements_of config) deployment_order s h
  simp only [deploy_environment, List.mem_append]
  exact Or.inl this

lemma pyReplace_untouched (old new : List Char) (s : List Char)
    (h : ¬ old <:+: s) : pyReplace old new s = s := by
  induction s with
  | nil => rw [pyReplace]
  | cons c cs ih =>
    rw [pyReplace, dif_neg, ih]
    · intro hin
      exact h ((List.infix_cons_iff.mpr (Or.inr hin)))
    · rintro ⟨-, hpre⟩
      have hp := List.isPrefixOf_iff_prefix.mp hpre
      exact h (List.IsPrefix.isInfix hp)

lemma pyReplace_first_occur (old new a b : List Char) (hold : old ≠ [])
    (h : ∀ i < a.length, ¬ old.isPrefixOf ((a ++ (old ++ b)).drop i)) :
    pyReplace old new (a ++ (old ++ b)) = a ++ (new ++ pyReplace old new b) := by
  induction a with
  | nil =>
    obtain ⟨o, os, rfl⟩ : ∃ o os, old = o :: os := by
      cases old with
      | nil => exact absurd rfl hold
      | cons o os => exact ⟨o, os, rfl⟩
    simp only [List.nil_append]
    rw [List.cons_append, pyReplace, dif_pos]
    · rw [← List.cons_append]
      congr 1
      rw [List.drop_left]
    · exact ⟨hold, by rw [← List.cons_append]; exact List.isPrefixOf_iff_prefix.mpr (List.prefix_append _ _)⟩
  | cons x a' ih =>
    rw [List.cons_append, pyReplace, dif_neg]
    · rw [ih (fun i hi => by
        have := h (i + 1) (by simp; omega)
        simpa using this)]
      simp
    · rintro ⟨-, hpre⟩
      have := h 0 (by simp)
      simp only [List.drop_zero] at this
      exact this hpre

lemma applyReplacements_untouched (repl : List (List Char × List Char)) (s : List Char)
    (h : ∀ kv ∈ repl, ¬ (placeholderToken kv.1) <:+: s) :
    applyReplacements repl s = s := by
  induction repl with
  | nil => rfl
  | cons kv rest ih =>
    unfold applyReplacements
    simp only [List.foldl_cons]
    rw [pyReplace_untouched _ _ _ (h kv (by simp))]
    exact ih (fun kv hkv => h kv (by simp [hkv]))

lemma mergeSort_perm_eq {l l' : List String} (h : l.Perm l') :
    l.mergeSort (fun a b => a ≤ b) = l'.mergeSort (fun a b => a ≤ b) := by
  have htrans : ∀ a b c : String,
      (fun a b : String => decide (a ≤ b)) a b = true →
      (fun a b : String => decide (a ≤ b)) b c = true →
      (fun a b : String => decide (a ≤ b)) a c = true := by
    intro a b c hab hbc
    simp only [decide_eq_true_eq] at hab hbc ⊢
    exact le_trans hab hbc
  have htotal : ∀ a b : String,
      ((fun a b : String => decide (a ≤ b)) a b
        || (fun a b : String => decide (a ≤ b)) b a) = true := by
    intro a b
    simp only [Bool.or_eq_true, decide_eq_true_eq]
    exact le_total a b
  apply List.eq_of_perm_of_sorted (r := fun a b : String => a ≤ b)
  · exact (List.mergeSort_perm l _).trans (h.trans (List.mergeSort_perm l' _).symm)
  · have := List.sorted_mergeSort htrans htotal l
    exact List.Pairwise.imp (fun hab => by simpa using hab) this
  · have := List.sorted_mergeSort htrans htotal l'
    exact List.Pairwise.imp (fun hab => by simpa using hab) this

lemma runFiles_congr (cursor : Cursor) (fs fs' : DeployFS)
    (repl : List (List Char × List Char)) (files : List String)
    (hfc : fs'.fileContent = fs.fileContent) :
    runFiles cursor fs' repl files = runFiles cursor fs repl files := by
  induction files with
  | nil => rfl
  | cons f rest ih =>
    have hexec : execute_sql_file cursor fs' f repl = execute_sql_file cursor fs f repl := by
      unfold execute_sql_file
      rw [hfc]
    simp only [runFiles, hexec, ih]

lemma runFolders_congr (cursor : Cursor) (fs fs' : DeployFS) (environment : String)
    (repl : List (List Char × List Char)) (folders : List String)
    (hde : fs'.dirExists = fs.dirExists) (hfc : fs'.fileContent = fs.fileContent)
    (hglob : ∀ p, (fs'.globSql p).Perm (fs.globSql p)) :
    runFolders cursor fs' environment repl folders
      = runFolders cursor fs environment repl folders := by
  induction folders with
  | nil => rfl
  | cons folder rest ih =>
    have hsort : sortedSqlFiles fs' (folder_path environment folder)
        = sortedSqlFiles fs (folder_path environment folder) :=
      mergeSort_perm_eq (hglob _)
    simp only [runFolders, hde, hsort,
      runFiles_congr cursor fs fs' repl _ hfc, ih]

/-- C2: validation runs all three check families to completion, never
short-circuiting on a failing check, accumulates every failure into one
sequence ordered null checks first, then unique checks, then count
checks (each family in rule and column order by construction of the
`run_*` functions), the run fails with exit code 1 exactly when the
accumulated sequence is non-empty (exit code 0 exactly when it is
empty), and on failure every failure description is reported. -/
theorem c2_validation_accumulates (fetch : Fetch) (database : String) (rules : RuleSet) :
    (validate_data_quality fetch database rules).all_failed_checks
      = run_null_checks fetch database rules.null_checks
        ++ run_unique_checks fetch database rules.unique_checks
        ++ run_count_checks fetch database rules.count_checks
  ∧ ((validate_data_quality fetch database rules).exitCode = 1
      ↔ (validate_data_quality fetch database rules).all_failed_checks ≠ [])
  ∧ ((validate_data_quality fetch database rules).exitCode = 0
      ↔ (validate_data_quality fetch database rules).all_failed_checks = [])
  ∧ ((validate_data_quality fetch database rules).all_failed_checks ≠ [] →
      (validate_data_quality fetch database rules).reported
        = (validate_data_quality fetch database rules).all_failed_checks) := by
  by_cases hL : (run_null_checks fetch database rules.null_checks
        ++ run_unique_checks fetch database rules.unique_checks
        ++ run_count_checks fetch database rules.count_checks) = []
  · have hval : validate_data_quality fetch database rules
        = ⟨run_null_checks fetch database rules.null_checks
            ++ run_unique_checks fetch database rules.unique_checks
            ++ run_count_checks fetch database rules.count_checks, [], 0, true, true⟩ := by
      unfold validate_data_quality
      rw [if_pos (List.isEmpty_iff.mpr hL)]
    rw [hval]
    exact ⟨rfl, iff_of_false (by simp) (fun hne => hne hL),
      iff_of_true rfl hL, fun hne => absurd hL hne⟩
  · have hval : validate_data_quality fetch database rules
        = ⟨run_null_checks fetch database rules.null_checks
            ++ run_unique_checks fetch database rules.unique_checks
            ++ run_count_checks fetch database rules.count_checks,
           run_null_checks fetch database rules.null_checks
            ++ run_unique_checks fetch database rules.unique_checks
            ++ run_count_checks fetch database rules.count_checks, 1, true, true⟩ := by
      unfold validate_data_quality
      rw [if_neg (fun hemp => hL (List.isEmpty_iff.mp hemp))]
    rw [hval]
    exact ⟨rfl, iff_of_true rfl hL, iff_of_false (by simp) hL, fun _ => rfl⟩

/-- C2 witness: one failing null check, one passing unique check and one
failing count check give exactly two reported failures, in null-then-count
order. -/
theorem c2_validation_accumulates_witness :
    (validate_data_quality
        (fun q => if q = unique_query "DB" "U" "C" then some [4, 4] else some [3])
        "DB" ⟨[⟨"N", ["C"]⟩], [⟨"U", ["C"]⟩], [⟨"T", 10⟩]⟩).all_failed_checks ≠ []
  ∧ (validate_data_quality
        (fun q => if q = unique_query "DB" "U" "C" then some [4, 4] else some [3])
        "DB" ⟨[⟨"N", ["C"]⟩], [⟨"U", ["C"]⟩], [⟨"T", 10⟩]⟩).reported
      = (validate_data_quality
        (fun q => if q = unique_query "DB" "U" "C" then some [4, 4] else some [3])
        "DB" ⟨[⟨"N", ["C"]⟩], [⟨"U", ["C"]⟩], [⟨"T", 10⟩]⟩).all_failed_checks
  ∧ (validate_data_quality
        (fun q => if q = unique_query "DB" "U" "C" then some [4, 4] else some [3])
        "DB" ⟨[⟨"N", ["C"]⟩], [⟨"U", ["C"]⟩], [⟨"T", 10⟩]⟩).all_failed_checks
      = ["❌ N.C: 3 NULL values found", "❌ T: 3 rows (minimum 10 required)"] :=
  ⟨by decide,
   (c2_validation_accumulates
      (fun q => if q = unique_query "DB" "U" "C" then some [4, 4] else some [3])
      "DB" ⟨[⟨"N", ["C"]⟩], [⟨"U", ["C"]⟩], [⟨"T", 10⟩]⟩).2.2.2 (by decide),
   by decide⟩

/-- C4: a count check fails exactly when the actual row count is strictly
less than the required minimum; the failure description carries the
actual count and the minimum; a count equal to or above the minimum
passes (the boundary is inclusive). -/
theorem c4_count_check_boundary (fetch : Fetch) (database : String) (check : CountCheck)
    (rest : List CountCheck) :
    run_count_checks fetch database (check :: rest)
      = (if actual_count_of fetch database check.table < check.min_count
         then [count_desc check.table (actual_count_of fetch database check.table) check.min_count]
         else []) ++ run_count_checks fetch database rest
  ∧ count_desc check.table (actual_count_of fetch database check.table) check.min_count
      = "❌ " ++ check.table ++ ": " ++ toString (actual_count_of fetch database check.table)
        ++ " rows (minimum " ++ toString check.min_count ++ " required)"
  ∧ (check.min_count ≤ actual_count_of fetch database check.table →
      run_count_checks fetch database [check] = []) := by
  refine ⟨rfl, rfl, ?_⟩
  intro hle
  simp [run_count_checks, not_lt.mpr hle]

/-- C4 witness: the boundary is inclusive, a table with exactly the
minimum number of rows passes. -/
theorem c4_count_check_boundary_witness :
    (100 : Int) ≤ actual_count_of (fun _ => some [100]) "DB" "T"
  ∧ run_count_checks (fun _ => some [100]) "DB" [⟨"T", 100⟩] = [] :=
  ⟨by decide,
   (c4_count_check_boundary (fun _ => some [100]) "DB" ⟨"T", 100⟩ []).2.2 (by decide)⟩

/-- C8: for every uniqueness rule and column, the check fails exactly
when the total row count differs from the distinct-value count, reporting
total minus distinct as the duplicate count; equal counts pass. -/
theorem c8_unique_check_duplicates (fetch : Fetch) (database table column : String)
    (cols : List String) (checkRest : List ColumnsCheck) :
    unique_check_columns fetch database table (column :: cols)
      = (if total_count_of fetch database table column
            ≠ unique_count_of fetch database table column
         then [unique_desc table column
                (total_count_of fetch database table column
                  - unique_count_of fetch database table column)]
         else []) ++ unique_check_columns fetch database table cols
  ∧ run_unique_checks fetch database (⟨table, column :: cols⟩ :: checkRest)
      = unique_check_columns fetch database table (column :: cols)
        ++ run_unique_checks fetch database checkRest
  ∧ unique_desc table column
      (total_count_of fetch database table column - unique_count_of fetch database table column)
      = "❌ " ++ table ++ "." ++ column ++ ": "
        ++ toString (total_count_of fetch database table column
            - unique_count_of fetch database table column)
        ++ " duplicate values found"
  ∧ (total_count_of fetch database table column = unique_count_of fetch database table column →
      unique_check_columns fetch database table [column] = []) := by
  refine ⟨rfl, rfl, rfl, ?_⟩
  intro heq
  simp [unique_check_columns, heq]

/-- C8 witness: total 10 and distinct 7 reports 3 duplicates; equal
counts pass. -/
theorem c8_unique_check_duplicates_witness :
    unique_check_columns (fun _ => some [10, 7]) "DB" "T" ["C"]
      = ["❌ T.C: 3 duplicate values found"]
  ∧ total_count_of (fun _ => some [5, 5]) "DB" "T" "C"
      = unique_count_of (fun _ => some [5, 5]) "DB" "T" "C"
  ∧ unique_check_columns (fun _ => some [5, 5]) "DB" "T" ["C"] = [] :=
  ⟨by decide, by decide,
   (c8_unique_check_duplicates (fun _ => some [5, 5]) "DB" "T" "C" [] []).2.2.2 (by decide)⟩

/-- C9: when the warehouse returns no row at all for a query, the
validator substitutes zero: a null check and a unique check pass, while
a count check fails exactly when its minimum is strictly positive,
reporting an actual count of zero. -/
theorem c9_missing_row_defaults (fetch : Fetch) (database table column : String) (mc : Int)
    (hnull : fetch (null_query database table column) = none)
    (huniq : fetch (unique_query database table column) = none)
    (hcount : fetch (count_query database table) = none) :
    null_check_columns fetch database table [column] = []
  ∧ unique_check_columns fetch database table [column] = []
  ∧ run_count_checks fetch database [⟨table, mc⟩]
      = (if 0 < mc then [count_desc table 0 mc] else [])
  ∧ actual_count_of fetch database table = 0 := by
  refine ⟨?_, ?_, ?_, ?_⟩
  · simp [null_check_columns, null_count_of, hnull, fetchedFirst]
  · simp [unique_check_columns, total_count_of, unique_count_of, huniq,
      fetchedFirst, fetchedSecond]
  · simp [run_count_checks, actual_count_of, hcount, fetchedFirst]
  · simp [actual_count_of, hcount, fetchedFirst]

/-- C9 witness: a connector returning no row makes null and unique
checks pass and a count check with a positive minimum fail at zero. -/
theorem c9_missing_row_defaults_witness :
    ((fun _ => none : Fetch) (null_query "DB" "T" "C") = none)
  ∧ null_check_columns (fun _ => none) "DB" "T" ["C"] = []
  ∧ unique_check_columns (fun _ => none) "DB" "T" ["C"] = []
  ∧ run_count_checks (fun _ => none) "DB" [⟨"T", 5⟩] = [count_desc "T" 0 5] := by
  have h := c9_missing_row_defaults (fun _ => none) "DB" "T" "C" 5 rfl rfl rfl
  exact ⟨rfl, h.1, h.2.1, by rw [h.2.2.1]; decide⟩

/-- C7: for both engines the cursor and the connection are closed on
every exit path: deployment success or raised statement error, and
validation success or failing checks. -/
theorem c7_session_always_closed :
    (∀ (cursor : Cursor) (fs : DeployFS) (environment : String) (config : EnvConfig),
      (deploy_environment cursor fs environment config).cursorClosed = true
      ∧ (deploy_environment cursor fs environment config).connClosed = true)
  ∧ (∀ (fetch : Fetch) (database : String) (rules : RuleSet),
      (validate_data_quality fetch database rules).cursorClosed = true
      ∧ (validate_data_quality fetch database rules).connClosed = true) := by
  constructor
  · intro cursor fs environment config
    exact ⟨rfl, rfl⟩
  · intro fetch database rules
    unfold validate_data_quality
    by_cases hL : (run_null_checks fetch database rules.null_checks
        ++ run_unique_checks fetch database rules.unique_checks
        ++ run_count_checks fetch database rules.count_checks).isEmpty = true
    · rw [if_pos hL]
      exact ⟨rfl, rfl⟩
    · rw [if_neg hL]
      exact ⟨rfl, rfl⟩

/-- C6: statement splitting splits the substituted text on the
terminator character, trims each piece, and discards empty pieces,
yielding the non-empty trimmed pieces in source order; a text with N
terminators has N+1 pieces, so when every piece is non-empty after
trimming it yields N+1 statements, and with a trailing terminator
(last piece trims to empty, all others non-empty) exactly N. -/
theorem c6_statement_splitting (s : List Char) :
    splitStatements s = ((pySplit ';' s).map pyStrip).filter (fun t => !t.isEmpty)
  ∧ (pySplit ';' s).length = s.count ';' + 1
  ∧ (∀ t ∈ splitStatements s, t ≠ [] ∧ pyStrip t = t)
  ∧ List.Sublist (splitStatements s) ((pySplit ';' s).map pyStrip)
  ∧ ((∀ p ∈ pySplit ';' s, pyStrip p ≠ []) →
      (splitStatements s).length = s.count ';' + 1)
  ∧ (∀ ps last, pySplit ';' s = ps ++ [last] → (∀ p ∈ ps, pyStrip p ≠ []) →
      pyStrip last = [] → (splitStatements s).length = s.count ';') := by
  refine ⟨rfl, length_pySplit ';' s, fun t ht => mem_splitStatements ht,
    splitStatements_sublist s, ?_, ?_⟩
  · intro hall
    have hfix : splitStatements s = (pySplit ';' s).map pyStrip := by
      unfold splitStatements
      apply List.filter_eq_self.mpr
      intro a ha
      obtain ⟨p, hp, rfl⟩ := List.mem_map.mp ha
      simpa using hall p hp
    rw [hfix, List.length_map, length_pySplit]
  · intro ps last hsplit hps hlast
    unfold splitStatements
    rw [hsplit, List.map_append, List.filter_append]
    have h1 : ((ps.map pyStrip).filter (fun t => !t.isEmpty)) = ps.map pyStrip := by
      apply List.filter_eq_self.mpr
      intro a ha
      obtain ⟨p, hp, rfl⟩ := List.mem_map.mp ha
      simpa using hps p hp
    have h2 : (([last].map pyStrip).filter (fun t => !t.isEmpty)) = [] := by
      simp [hlast]
    have hlen := length_pySplit ';' s
    rw [hsplit] at hlen
    simp only [List.length_append, List.length_singleton] at hlen
    rw [h1, h2, List.append_nil, List.length_map]
    omega

/-- C6 witness: a file with two terminators delimiting two statements
and a trailing terminator yields exactly the two trimmed statements. -/
theorem c6_statement_splitting_witness :
    pySplit ';' "CREATE a; DROP b;".toList
      = ["CREATE a".toList, " DROP b".toList] ++ [([] : List Char)]
  ∧ pyStrip ([] : List Char) = []
  ∧ (splitStatements "CREATE a; DROP b;".toList).length
      = ("CREATE a; DROP b;".toList).count ';' := by
  refine ⟨by decide, by decide, ?_⟩
  exact (c6_statement_splitting "CREATE a; DROP b;".toList).2.2.2.2.2
    ["CREATE a".toList, " DROP b".toList] [] (by decide) (by decide) (by decide)

/-- C5: substitution is applied to the full file text exactly once,
before statement splitting; a replacement pass rewrites the leftmost
occurrence of the known placeholder token in place, leaving the text
before it unchanged and continuing behind the inserted value; text not
containing a known token, in particular a token whose key is not in the
map, is left untouched and raises no error. -/
theorem c5_placeholder_substitution :
    (∀ (cursor : Cursor) (fs : DeployFS) (file_path : String)
        (replacements : List (List Char × List Char)),
      execute_sql_file cursor fs file_path replacements
        = runStatements cursor
            (splitStatements (applyReplacements replacements (fs.fileContent file_path))))
  ∧ (∀ key value a b, (∀ i < a.length,
        ¬ (placeholderToken key).isPrefixOf ((a ++ (placeholderToken key ++ b)).drop i)) →
      pyReplace (placeholderToken key) value (a ++ (placeholderToken key ++ b))
        = a ++ (value ++ pyReplace (placeholderToken key) value b))
  ∧ (∀ key value s, ¬ (placeholderToken key) <:+: s →
      pyReplace (placeholderToken key) value s = s)
  ∧ (∀ repl s, (∀ kv ∈ repl, ¬ (placeholderToken kv.1) <:+: s) →
      applyReplacements repl s = s) := by
  refine ⟨fun _ _ _ _ => rfl, ?_, ?_, ?_⟩
  · intro key value a b h
    exact pyReplace_first_occur _ _ _ _ (by simp [placeholderToken]) h
  · intro key value s h
    exact pyReplace_untouched _ _ s h
  · intro repl s h
    exact applyReplacements_untouched repl s h

/-- C5 witness: the token for DATABASE_NAME with configured value
ANALYTICS yields the literal text ANALYTICS at the token location, and
the surrounding text is unaffected. -/
theorem c5_placeholder_substitution_witness :
    ¬ (placeholderToken "DATABASE_NAME".toList) <:+: " now".toList
  ∧ pyReplace (placeholderToken "DATABASE_NAME".toList) "ANALYTICS".toList
      ("USE ".toList ++ (placeholderToken "DATABASE_NAME".toList ++ " now".toList))
      = "USE ".toList ++ ("ANALYTICS".toList ++ " now".toList) := by
  have h2 := (c5_placeholder_substitution).2.1 "DATABASE_NAME".toList "ANALYTICS".toList
    "USE ".toList " now".toList (by decide)
  have h3 := (c5_placeholder_substitution).2.2.1 "DATABASE_NAME".toList "ANALYTICS".toList
    " now".toList (by decide)
  exact ⟨by decide, by rw [h2, h3]⟩

set_option maxHeartbeats 1000000 in
/-- C10: substitution is sequential over the already-substituted text,
not simultaneous: with the deployment replacement map of a configuration
whose database value itself contains the warehouse placeholder token,
the token inserted by the DATABASE_NAME pass is substituted again by the
later WAREHOUSE_NAME pass, so the final text differs from the
simultaneous replacement of the original tokens. -/
theorem c10_sequential_not_simultaneous :
    applyReplacements
        (replacements_of ⟨"\x7bWAREHOUSE_NAME\x7d_DB".toList, "W".toList, "R".toList⟩)
        "USE \x7bDATABASE_NAME\x7d".toList
      = "USE W_DB".toList
  ∧ simultaneousSubst
        (replacements_of ⟨"\x7bWAREHOUSE_NAME\x7d_DB".toList, "W".toList, "R".toList⟩)
        "USE \x7bDATABASE_NAME\x7d".toList
      = "USE \x7bWAREHOUSE_NAME\x7d_DB".toList
  ∧ applyReplacements
        (replacements_of ⟨"\x7bWAREHOUSE_NAME\x7d_DB".toList, "W".toList, "R".toList⟩)
        "USE \x7bDATABASE_NAME\x7d".toList
      ≠ simultaneousSubst
        (replacements_of ⟨"\x7bWAREHOUSE_NAME\x7d_DB".toList, "W".toList, "R".toList⟩)
        "USE \x7bDATABASE_NAME\x7d".toList := by
  have h1 : applyReplacements
      (replacements_of ⟨"\x7bWAREHOUSE_NAME\x7d_DB".toList, "W".toList, "R".toList⟩)
      "USE \x7bDATABASE_NAME\x7d".toList = "USE W_DB".toList := by
    simp [applyReplacements, replacements_of, pyReplace, placeholderToken]
  have h2 : simultaneousSubst
      (replacements_of ⟨"\x7bWAREHOUSE_NAME\x7d_DB".toList, "W".toList, "R".toList⟩)
      "USE \x7bDATABASE_NAME\x7d".toList = "USE \x7bWAREHOUSE_NAME\x7d_DB".toList := by
    simp [simultaneousSubst, replacements_of, placeholderToken]
  refine ⟨h1, h2, ?_⟩
  rw [h1, h2]
  decide

/-- C1: a raised statement error aborts the whole deployment at exactly
the failing statement: the error propagates as the run result (so the
run is not reported as a success), the statements handed to the
connector are exactly those before the failure plus the failing one (no
later statement, file, or folder executes), and the failing statement
content is surfaced on the console. -/
theorem c1_deployment_fail_fast (cursor : Cursor) (fs : DeployFS) (environment : String)
    (config : EnvConfig) (pre post : List (List Char)) (bad : List Char) (e : String)
    (hplan : plannedStatements fs environment (replacements_of config) = pre ++ bad :: post)
    (hpre : ∀ s ∈ pre, cursor s = Except.ok ()) (hbad : cursor bad = Except.error e) :
    (deploy_environment cursor fs environment config).result = Except.error e
  ∧ (deploy_environment cursor fs environment config).attempted = pre ++ [bad]
  ∧ execLine bad ∈ (deploy_environment cursor fs environment config).log := by
  have hspec := deploy_spec cursor fs environment config
  rw [hplan] at hspec
  have herr := runStatements_error_at cursor pre post bad e hpre hbad
  refine ⟨?_, ?_, ?_⟩
  · rw [hspec.2, herr.2]
  · rw [hspec.1, herr.1]
  · exact deploy_log_mem cursor fs environment config bad
      (by rw [hspec.1, herr.1]; simp)

/-- C3: the deployment execution order is total and fixed: the folder
order is the compile-time list ddl, stored_procedures, tasks, rbac; what
a deployment attempts is exactly the fail-fast run of the planned
statement sequence, which walks the folders in that fixed order, the
files of each folder in lexical order, and the statements of each file
in source order; the run is invariant under any permutation of the raw
filesystem enumeration; and a folder absent on disk contributes nothing
and raises no error. -/
theorem c3_fixed_total_order :
    deployment_order = ["ddl", "stored_procedures", "tasks", "rbac"]
  ∧ (∀ (cursor : Cursor) (fs : DeployFS) (environment : String) (config : EnvConfig),
      (deploy_environment cursor fs environment config).attempted
        = (runStatements cursor
            (plannedStatements fs environment (replacements_of config))).attempted
      ∧ (deploy_environment cursor fs environment config).result
        = (runStatements cursor
            (plannedStatements fs environment (replacements_of config))).result)
  ∧ (∀ (cursor : Cursor) (fs fs' : DeployFS) (environment : String) (config : EnvConfig),
      fs'.dirExists = fs.dirExists → fs'.fileContent = fs.fileContent →
      (∀ p, (fs'.globSql p).Perm (fs.globSql p)) →
      deploy_environment cursor fs' environment config
        = deploy_environment cursor fs environment config)
  ∧ (∀ (fs : DeployFS) (environment : String) (repl : List (List Char × List Char))
        (folder : String),
      fs.dirExists (folder_path environment folder) = false →
      folderStatements fs environment repl folder = [])
  ∧ (∀ (cursor : Cursor) (fs : DeployFS) (environment : String) (config : EnvConfig),
      (∀ folder, fs.dirExists (folder_path environment folder) = false) →
      (deploy_environment cursor fs environment config).attempted = []
      ∧ (deploy_environment cursor fs environment config).result = Except.ok ()) := by
  refine ⟨rfl, ?_, ?_, ?_, ?_⟩
  · intro cursor fs environment config
    exact deploy_spec cursor fs environment config
  · intro cursor fs fs' environment config hde hfc hglob
    unfold deploy_environment
    rw [runFolders_congr cursor fs fs' environment (replacements_of config)
      deployment_order hde hfc hglob]
  · intro fs environment repl folder h
    simp [folderStatements, h]
  · intro cursor fs environment config h
    have hplan : plannedStatements fs environment (replacements_of config) = [] := by
      unfold plannedStatements deployment_order
      simp [folderStatements, h]
    have hspec := deploy_spec cursor fs environment config
    rw [hplan] at hspec
    exact ⟨by rw [hspec.1]; rfl, by rw [hspec.2]; rfl⟩

/-- Concrete filesystem for exercising the fail-fast behaviour: one
populated ddl folder holding one file of two statements. -/
def c1fs : DeployFS :=
  ⟨fun p => p == "scripts/e/ddl",
   fun p => if p == "scripts/e/ddl" then ["f.sql"] else [],
   fun _ => "S1; S2".toList⟩

/-- Concrete connector that accepts the first statement and raises on
the second. -/
def c1cursor : Cursor :=
  fun s => if s = "S1".toList then Except.ok () else Except.error "boom"

/-- Concrete environment configuration without placeholder use. -/
def c1cfg : EnvConfig := ⟨"D".toList, "W".toList, "R".toList⟩

/-- C1 witness: an error on the second of two statements aborts the run
with that error, only the two statements were handed to the connector,
and the failing statement content is on the console. -/
theorem c1_deployment_fail_fast_witness :
    plannedStatements c1fs "e" (replacements_of c1cfg) = ["S1".toList] ++ "S2".toList :: []
  ∧ c1cursor "S2".toList = Except.error "boom"
  ∧ (deploy_environment c1cursor c1fs "e" c1cfg).result = Except.error "boom"
  ∧ (deploy_environment c1cursor c1fs "e" c1cfg).attempted = ["S1".toList, "S2".toList]
  ∧ execLine "S2".toList ∈ (deploy_environment c1cursor c1fs "e" c1cfg).log := by
  have hplan : plannedStatements c1fs "e" (replacements_of c1cfg)
      = ["S1".toList] ++ "S2".toList :: [] := by
    have hsub : applyReplacements (replacements_of c1cfg) ("S1; S2".toList) = "S1; S2".toList :=
      applyReplacements_untouched _ _ (by decide)
    unfold plannedStatements deployment_order folderStatements
    simp only [List.map_cons, List.map_nil, List.flatten_cons, List.flatten_nil]
    rw [if_pos (show c1fs.dirExists (folder_path "e" "ddl") = true by decide),
        if_neg (show ¬ (c1fs.dirExists (folder_path "e" "stored_procedures") = true) by decide),
        if_neg (show ¬ (c1fs.dirExists (folder_path "e" "tasks") = true) by decide),
        if_neg (show ¬ (c1fs.dirExists (folder_path "e" "rbac") = true) by decide)]
    rw [show sortedSqlFiles c1fs (folder_path "e" "ddl") = ["f.sql"] from by
          unfold sortedSqlFiles
          rw [show c1fs.globSql (folder_path "e" "ddl") = ["f.sql"] from by decide]
          exact List.mergeSort_singleton _]
    simp only [List.flatMap_cons, List.flatMap_nil]
    unfold fileStatements
    rw [show c1fs.fileContent "f.sql" = "S1; S2".toList from rfl]
    rw [hsub]
    decide
  have h := c1_deployment_fail_fast c1cursor c1fs "e" c1cfg ["S1".toList] [] "S2".toList "boom"
    hplan (by intro s hs; simp only [List.mem_singleton] at hs; subst hs; rfl) rfl
  exact ⟨hplan, rfl, h.1, by simpa using h.2.1, h.2.2⟩

/-- Concrete filesystem whose ddl folder is enumerated out of lexical
order by the glob. -/
def c3fsA : DeployFS :=
  ⟨fun p => p == "scripts/e/ddl",
   fun p => if p == "scripts/e/ddl" then ["b.sql", "a.sql"] else [],
   fun _ => "T1".toList⟩

/-- Same filesystem with the opposite enumeration order. -/
def c3fsB : DeployFS :=
  ⟨fun p => p == "scripts/e/ddl",
   fun p => if p == "scripts/e/ddl" then ["a.sql", "b.sql"] else [],
   fun _ => "T1".toList⟩

/-- Filesystem with every deployment folder absent. -/
def c3empty : DeployFS := ⟨fun _ => false, fun _ => [], fun _ => []⟩

/-- Connector that accepts every statement. -/
def c3cursor : Cursor := fun _ => Except.ok ()

/-- Environment configuration for the order witnesses. -/
def c3cfg : EnvConfig := ⟨"D".toList, "W".toList, "R".toList⟩

/-- C3 witness: the deployment outcome is identical under both
filesystem enumeration orders, and a filesystem with no deployment
folders deploys successfully with zero statements executed. -/
theorem c3_fixed_total_order_witness :
    deploy_environment c3cursor c3fsB "e" c3cfg = deploy_environment c3cursor c3fsA "e" c3cfg
  ∧ (deploy_environment c3cursor c3empty "e" c3cfg).attempted = []
  ∧ (deploy_environment c3cursor c3empty "e" c3cfg).result = Except.ok () := by
  have hperm : ∀ p, (c3fsB.globSql p).Perm (c3fsA.globSql p) := by
    intro p
    unfold c3fsA c3fsB
    dsimp only
    split
    · decide
    · decide
  have habs : ∀ folder, c3empty.dirExists (folder_path "e" folder) = false := fun _ => rfl
  have h3 := c3_fixed_total_order.2.2.1 c3cursor c3fsA c3fsB "e" c3cfg rfl rfl hperm
  have h5 := c3_fixed_total_order.2.2.2.2 c3cursor c3empty "e" c3cfg habs
  exact ⟨h3, h5.1, h5.2⟩
